import Mathlib

/-
Verification of the planckton-flow workflow script (src/project.py).

The file shallowly embeds the pieces of the script that the specification
talks about:

* the throughput/elapsed-time log parser `get_tps_time`;
* the job model with the `current_step` query and the `sampled` / `rdfed`
  labels;
* the two-operation scheduler (the eligibility rule of the external
  signac-flow library is modelled from the spec, the predicate sets come
  from the decorators in the source);
* the analysis operation `post_proc`, embedded as the ordered trace of
  filesystem / document effects it performs, parameterised over the
  external numeric libraries (gsd_rdf, freud MSD, freud diffraction,
  cmeutils get_quaternions) which are collected in an `Analysis` record.

Machine integers do not overflow anywhere in the modelled code (Python
ints are unbounded), so `Nat`/`Int` are used directly; numeric analysis
payloads are rationals.
-/

namespace PlancktonFlow

/-- Decidable equality for `Except`, used to evaluate the parser on
concrete inputs. -/
instance {ε α : Type} [DecidableEq ε] [DecidableEq α] : DecidableEq (Except ε α) := fun x y =>
  match x, y with
  | .ok a, .ok b =>
    if h : a = b then .isTrue (congrArg Except.ok h)
    else .isFalse (fun hc => h (Except.ok.inj hc))
  | .error a, .error b =>
    if h : a = b then .isTrue (congrArg Except.error h)
    else .isFalse (fun hc => h (Except.error.inj hc))
  | .ok _, .error _ => .isFalse (fun hc => Except.noConfusion hc)
  | .error _, .ok _ => .isFalse (fun hc => Except.noConfusion hc)

/-! ## Python string and slicing helpers -/

/-- Membership test used to mirror Python's `pat in s` substring check:
`leadMatch pat cs` says `pat` is a leading segment of `cs`. -/
def leadMatch : List Char → List Char → Bool
  | [], _ => true
  | _ :: _, [] => false
  | c :: cs, d :: ds => c = d && leadMatch cs ds

/-- `subMatch pat cs` is true when `pat` occurs contiguously inside `cs`. -/
def subMatch (pat : List Char) : List Char → Bool
  | [] => leadMatch pat []
  | c :: cs => leadMatch pat (c :: cs) || subMatch pat cs

/-- Python's substring containment `pat in s`. -/
def strContains (s pat : String) : Bool :=
  subMatch pat.toList s.toList

/-- The whitespace characters stripped by Python's `str.strip()`. -/
def pySpaceChars : List Char := [' ', '\t', '\n', '\r', '\x0b', '\x0c']

/-- Drop the characters of `set` from both ends of a character list
(the semantics of Python's `str.strip(chars)`). -/
def stripCharsList (cs set : List Char) : List Char :=
  ((cs.dropWhile (set.contains ·)).reverse.dropWhile (set.contains ·)).reverse

/-- Python's `s.strip(chars)`. -/
def pyStripChars (s chars : String) : String :=
  ⟨stripCharsList s.toList chars.toList⟩

/-- Python's `s.strip()` (whitespace strip). -/
def pyStrip (s : String) : String :=
  ⟨stripCharsList s.toList pySpaceChars⟩

/-- Parse a digit string to a natural number; `none` when empty or
containing a non-digit. -/
def digitsToNat : List Char → Option Nat
  | [] => none
  | cs =>
    if cs.all Char.isDigit then
      some (cs.foldl (fun a c => a * 10 + (c.toNat - 48)) 0)
    else none

/-- Python's `int(s)` on decimal strings: surrounding whitespace is
tolerated, one optional sign, then digits; anything else raises
`ValueError`, modelled as `none`. -/
def pyInt (s : String) : Option Int :=
  match stripCharsList s.toList pySpaceChars with
  | '-' :: rest => (digitsToNat rest).map (fun n => -(n : Int))
  | '+' :: rest => (digitsToNat rest).map (fun n => (n : Int))
  | cs => (digitsToNat cs).map (fun n => (n : Int))

/-- Python's `f"{n:02d}"`: decimal rendering zero-padded to width 2. -/
def pyFmt02 (n : Int) : String :=
  if n < 0 then "-" ++ toString (-n)
  else if n < 10 then "0" ++ toString n
  else toString n

/-- Helper for `pySplit`: split a character list at every occurrence of
`sep`, the accumulator holding the current field reversed. -/
def splitCharAux (sep : Char) : List Char → List Char → List (List Char)
  | [], acc => [acc.reverse]
  | c :: cs, acc =>
    if c = sep then acc.reverse :: splitCharAux sep cs []
    else splitCharAux sep cs (c :: acc)

/-- Python's `s.split(sep)` for a one-character separator: fields between
consecutive occurrences of `sep`, empty fields kept, `[""]` on the empty
string. -/
def pySplit (s : String) (sep : Char) : List String :=
  (splitCharAux sep s.toList []).map (fun cs => ⟨cs⟩)

/-- Resolve one endpoint of a Python slice `l[a:b]` against length `n`. -/
def pyIdx (n : Nat) (i : Int) : Nat :=
  if i < 0 then (max (i + n) 0).toNat else min i.toNat n

/-- Python's list slice `l[start:stop]` (step 1, negative indices allowed). -/
def pySlice {α : Type} (l : List α) (start stop : Int) : List α :=
  let a := pyIdx l.length start
  let b := pyIdx l.length stop
  (l.drop a).take (b - a)

/-! ## Throughput parser: `get_tps_time` (src/project.py lines 204-228)

A log file is a list of lines (as produced by `readlines()`, so each line
normally keeps its trailing newline). -/

/-- A line counts as a throughput marker when it contains `"Average TPS"`. -/
def hasTps (l : String) : Bool := strContains l "Average TPS"

/-- A line counts as a time marker when it contains `"Time"`. -/
def hasTime (l : String) : Bool := strContains l "Time"

/-- The effect of one iteration of the `for ofile in outfiles` loop in
`get_tps_time`: the optional new value of the `tps` local and the optional
seconds count appended to `times`.  `Except.error ()` is an escaping
`ValueError` (from tuple unpacking or `int()`), which the loop's
`except IndexError` does not catch.  An `IndexError` — no `"Average TPS"`
line, no `"Time"` line, or a `"Time"` line without a second
space-separated field — is caught and ends the iteration early. -/
def fileContrib (lines : List String) : Except Unit (Option String × Option Int) :=
  match (lines.filter hasTps).getLast? with
  | none => .ok (none, none)
  | some tpsline =>
    let tps := pyStrip (pyStripChars tpsline "Average TPS:")
    match (lines.filter hasTime).getLast? with
    | none => .ok (some tps, none)
    | some tline =>
      match (pySplit tline ' ').get? 1 with
      | none => .ok (some tps, none)
      | some field =>
        match pySplit field ':' with
        | [h, m, s] =>
          match pyInt h, pyInt m, pyInt s with
          | some hv, some mv, some sv => .ok (some tps, some (hv * 3600 + mv * 60 + sv))
          | _, _, _ => .error ()
        | _ => .error ()

/-- The errors `get_tps_time` can raise: an uncaught `ValueError`, or the
`UnboundLocalError` from returning `tps` when no file ever assigned it. -/
inductive TpsErr where
  | valueError
  | unboundLocal
deriving DecidableEq

/-- Last-write-wins update of the `tps` local across files. -/
def mergeTps : Option String → Option String → Option String
  | some t, _ => some t
  | none, tps => tps

/-- The `for ofile in outfiles` loop of `get_tps_time`, threading the
`tps` local and the `times` accumulator. -/
def runFiles : List (List String) → Option String → List Int →
    Except TpsErr (Option String × List Int)
  | [], tps, times => .ok (tps, times)
  | f :: fs, tps, times =>
    match fileContrib f with
    | .error _ => .error .valueError
    | .ok contrib => runFiles fs (mergeTps contrib.1 tps) (times ++ contrib.2.toList)

/-- Python's `total_time // 3600` etc. re-rendered as `HH:MM:SS` with
`f"{hh:02d}:{mm:02d}:{ss:02d}"`; `//` is floor division and `%` is
Python's (nonnegative-remainder) modulo. -/
def formatHMS (total : Int) : String :=
  let hh := Int.fdiv total 3600
  let mm := Int.fdiv (total - hh * 3600) 60
  let ss := Int.emod total 60
  pyFmt02 hh ++ ":" ++ pyFmt02 mm ++ ":" ++ pyFmt02 ss

/-- `get_tps_time(outfiles)`.  After the loop, `np.sum(times)` is taken;
when `times` is empty `np.sum` returns the float `0.0` and the `d` format
code then raises `ValueError`, and when `tps` was never assigned the
`return tps, ...` raises `UnboundLocalError` (the tuple is evaluated left
to right, so the unbound lookup of `tps` fires first). -/
def get_tps_time (outfiles : List (List String)) : Except TpsErr (String × String) :=
  match runFiles outfiles none [] with
  | .error e => .error e
  | .ok (tps?, times) =>
    match tps? with
    | none => .error .unboundLocal
    | some tps =>
      if times.isEmpty then .error .valueError
      else .ok (tps, formatHMS (times.foldl (fun x y => x + y) 0))

/-- The throughput sample contributed by one file (if any). -/
def tpsOf (f : List String) : Option String :=
  match fileContrib f with
  | .ok c => c.1
  | .error _ => none

/-- The elapsed-seconds sample contributed by one file (if any). -/
def timeOf (f : List String) : Option Int :=
  match fileContrib f with
  | .ok c => c.2
  | .error _ => none

/-- All throughput samples, in processing order. -/
def tpsList (files : List (List String)) : List String :=
  files.filterMap tpsOf

/-- All elapsed-seconds samples, in processing order. -/
def timesList (files : List (List String)) : List Int :=
  files.filterMap timeOf

/-! ## Trajectories, jobs and labels (src/project.py lines 73-116) -/

/-- A particle position. -/
abbrev Pos : Type := ℚ × ℚ × ℚ

/-- An orientation quaternion (as iterated by the diffraction loop). -/
abbrev Quat : Type := ℚ × ℚ × ℚ × ℚ

/-- One frame of a GSD trajectory: its step counter
(`configuration.step`), the particle type table (`particles.types`), the
per-particle type ids and positions, and the simulation box. -/
structure Frame where
  step : Nat
  types : List String
  typeid : List Nat
  positions : List Pos
  box : List ℚ
deriving DecidableEq

instance : Inhabited Frame := ⟨⟨0, [], [], [], []⟩⟩

/-- A trajectory file: an ordered sequence of frames. -/
structure Traj where
  frames : List Frame
deriving DecidableEq

/-- A job: the optional `trajectory.gsd` in its workspace, the target step
count stored in its document (`job.doc.steps`), the statepoint's
`n_steps`, and the set of other files present in the workspace. -/
structure Job where
  traj : Option Traj
  docSteps : Int
  spNSteps : Int
  files : List String
deriving DecidableEq

/-- `current_step(job)`: the final frame's step counter of
`trajectory.gsd` when the file exists, and the sentinel `-1` otherwise
("not started").  A trajectory file is assumed non-empty where it matters
(`traj[-1]` would raise on an empty file); theorems carry that
hypothesis. -/
def current_step (j : Job) : Int :=
  match j.traj with
  | some t => ((t.frames.getLastD default).step : Int)
  | none => -1

/-- The `sampled` label: `current_step(job) >= job.doc.steps`. -/
def sampled (j : Job) : Bool :=
  decide (current_step j ≥ j.docSteps)

/-- The `rdfed` label: `job.isfile("rdf.txt")`. -/
def rdfed (j : Job) : Bool :=
  j.files.contains "rdf.txt"

/-- An operation's predicate sets, as declared by the `@MyProject.pre` and
`@MyProject.post` decorators. -/
structure Operation where
  pre : List (Job → Bool)
  post : List (Job → Bool)

/-- Modelled from the spec: the eligibility rule of the external
signac-flow scheduler (not part of this repository's sources) — an
operation is eligible iff every predicate in its pre-condition set is true
on the job and at least one predicate in its post-condition set is false. -/
def eligible (op : Operation) (j : Job) : Bool :=
  op.pre.all (fun p => p j) && op.post.any (fun p => !(p j))

/-- The `sample` operation: no pre-conditions, post-condition `sampled`. -/
def sampleOp : Operation := ⟨[], [sampled]⟩

/-- The `post_proc` operation: pre-condition `sampled`, post-condition
`rdfed`. -/
def postProcOp : Operation := ⟨[sampled], [rdfed]⟩

/-! ## The analysis operation `post_proc` (src/project.py lines 230-335)

The heavy numeric kernels live in external libraries (cmeutils, freud,
scipy); they are abstracted as the fields of an `Analysis` record, and
`post_proc` is embedded as the ordered trace of filesystem and job-document
effects the operation performs, paired with a flag recording whether the
operation raised. -/

/-- The external numeric dependencies of `post_proc`. -/
structure Analysis where
  /-- `cmeutils.structure.gsd_rdf(gsdfile, A, B, r_min, r_max)`: returns
  the RDF's bin centers, the raw `rdf` array, and the normalization. -/
  gsd_rdf : Traj → String → String → ℚ → ℚ → (List ℚ × List ℚ × ℚ)
  /-- `freud.msd.MSD(box, mode="window").compute(positions).msd`. -/
  msdCompute : List ℚ → List (List Pos) → List ℚ
  /-- `freud.diffraction.DiffractionPattern.compute((box, points),
  view_orientation=q)`: the rendered pattern, abstracted as its data. -/
  diffract : List ℚ → List Pos → Quat → List ℚ
  /-- `cmeutils.structure.get_quaternions()`: the fixed orientation set. -/
  quats : List Quat
  /-- Python's `str` rendering of an orientation, used in the plot
  filename `"diffraction_plots/%s.png" % (q)`. -/
  qstr : Quat → String

/-- `atom_type_pos(snap, atom_type)`: the positions of the particles
whose type id is the index of `atom_type` in the frame's type table. -/
def atom_type_pos (snap : Frame) (t : String) : List Pos :=
  let idx := snap.types.indexOf t
  (snap.typeid.zip snap.positions).filterMap
    (fun p => if p.1 = idx then some p.2 else none)

/-- `msd_from_gsd(gsdfile, start, stop, atom_type, "window")`: collect
`atom_type_pos` over the frame slice `trajectory[start:stop]` and run the
windowed MSD against the final frame's box. -/
def msd_from_gsd (A : Analysis) (traj : Traj) (start stop : Int) (t : String) : List ℚ :=
  A.msdCompute ((traj.frames.getLastD default).box)
    ((pySlice traj.frames start stop).map (fun fr => atom_type_pos fr t))

/-- The slope of `scipy.stats.linregress(x, y)` with `x = 0, 1, 2, ...`:
the ordinary-least-squares slope Σ(xᵢ-x̄)(yᵢ-ȳ) / Σ(xᵢ-x̄)². -/
def olsSlope (y : List ℚ) : ℚ :=
  let n : ℚ := (y.length : ℚ)
  let xs : List ℚ := (List.range y.length).map (fun i => (i : ℚ))
  let xbar := xs.sum / n
  let ybar := y.sum / n
  (((xs.zip y).map (fun p => (p.1 - xbar) * (p.2 - ybar))).sum) /
    ((xs.map (fun x => (x - xbar) * (x - xbar))).sum)

/-- A filesystem or job-document effect of `post_proc`, in program order.
Paths are relative to the job workspace (`os.path.join(job.ws, ...)`). -/
inductive Event where
  /-- `os.makedirs(p)` (raises `FileExistsError` when `p` exists). -/
  | makedirs (p : String)
  /-- `os.mkdir(p)` (raises `FileExistsError` when `p` exists). -/
  | mkdir (p : String)
  /-- `np.savetxt(p, np.transpose([x, y]), delimiter, header)`. -/
  | savetxt (p : String) (header delim : String) (data : List (ℚ × ℚ))
  /-- `plt.plot(x, y)` on the per-type RDF figure. -/
  | plotXY (x y : List ℚ)
  /-- `plt.savefig(p)`. -/
  | savefig (p : String)
  /-- `np.save(p, arr)` of a numeric series. -/
  | npsaveArr (p : String) (data : List ℚ)
  /-- `plt.plot(arr, label=...)` on the shared MSD figure. -/
  | plotSeries (data : List ℚ)
  /-- `job.doc[key] = slopes`. -/
  | docWrite (key : String) (slopes : List (String × ℚ))
  /-- The per-orientation diffraction `plt.savefig`, carrying the pattern
  computed from the final frame. -/
  | diffplot (p : String) (img : List ℚ)
  /-- `np.save(p, q_list)` of the orientation list. -/
  | npsaveQuats (p : String) (data : List Quat)
deriving DecidableEq

/-- One iteration of the `for types in all_atoms` loop: its effect events
in program order, and the fitted MSD slope recorded into `slopes`. -/
def rdfMsdStep (A : Analysis) (traj : Traj) (t : String) : List Event × ℚ :=
  let r := A.gsd_rdf traj t t (1 / 100) 5
  let x := r.1
  let y := r.2.1.map (fun v => v * r.2.2)
  let msdArr := msd_from_gsd A traj (-30) (-1) t
  let msdSlopeArr := msd_from_gsd A traj (-25) (-9) t
  ([Event.savetxt ("rdf/rdf_txt_files/" ++ t ++ "_rdf.txt") "bin_centers, rdf" "," (x.zip y),
    Event.plotXY x y,
    Event.savefig ("rdf/rdf_png_files/" ++ t ++ "_rdf.png"),
    Event.npsaveArr ("msd/msd_npy_files/" ++ t ++ ".npy") msdArr,
    Event.plotSeries msdArr,
    Event.savefig "msd/msd.png"],
   olsSlope msdSlopeArr)

/-- The whole `for types in all_atoms` loop: concatenated events and the
`slopes` dictionary in insertion order. -/
def rdfMsdLoop (A : Analysis) (traj : Traj) : List String → List Event × List (String × ℚ)
  | [] => ([], [])
  | t :: ts =>
    let s := rdfMsdStep A traj t
    let rest := rdfMsdLoop A traj ts
    (s.1 ++ rest.1, (t, s.2) :: rest.2)

/-- The diffraction stage (after `os.mkdir` succeeded): one plot per
orientation of `get_quaternions()`, computed from the given (final)
frame, then `np.save(dp.npy, q_list)`. -/
def diffEvents (A : Analysis) (snap : Frame) : List Event :=
  (A.quats.map (fun q =>
    Event.diffplot ("diffraction_plots/" ++ A.qstr q ++ ".png")
      (A.diffract snap.box snap.positions q)))
  ++ [Event.npsaveQuats "dp.npy" A.quats]

/-- The `post_proc(job)` operation body: the trace of effects it performs
on a workspace whose existing entries are `fs`, and whether it raised.
`os.makedirs` / `os.mkdir` raise `FileExistsError` exactly when the target
directory already exists; the raise aborts the operation, keeping the
effects performed so far. -/
def post_proc (A : Analysis) (traj : Traj) (fs : List String) : List Event × Bool :=
  match traj.frames with
  | [] => ([], true)
  | snap0 :: _ =>
    if fs.contains "rdf/rdf_txt_files" then ([], true)
    else if fs.contains "rdf/rdf_png_files" then
      ([Event.makedirs "rdf/rdf_txt_files"], true)
    else if fs.contains "msd/msd_npy_files" then
      ([Event.makedirs "rdf/rdf_txt_files", Event.makedirs "rdf/rdf_png_files"], true)
    else
      let lp := rdfMsdLoop A traj snap0.types
      let evs := [Event.makedirs "rdf/rdf_txt_files", Event.makedirs "rdf/rdf_png_files",
        Event.makedirs "msd/msd_npy_files"] ++ lp.1 ++ [Event.docWrite "msd_slopes" lp.2]
      if fs.contains "diffraction_plots" then (evs, true)
      else (evs ++ Event.mkdir "diffraction_plots" :: diffEvents A (traj.frames.getLastD default),
        false)

/-- Whether an event is a directory creation. -/
def isDirCreate : Event → Bool
  | .makedirs _ => true
  | .mkdir _ => true
  | _ => false

/-- Whether the directory-creation events of a trace all happen at its
start (they form a prefix of the trace). -/
def dirsFirst (tr : List Event) : Bool :=
  (tr.dropWhile isDirCreate).all (fun e => !(isDirCreate e))

/-- The file path created by an event, when it creates one. -/
def pathWritten : Event → Option String
  | .savetxt p _ _ _ => some p
  | .savefig p => some p
  | .npsaveArr p _ => some p
  | .diffplot p _ => some p
  | .npsaveQuats p _ => some p
  | _ => none

/-- All file paths created by a trace. -/
def pathsWritten (tr : List Event) : List String :=
  tr.filterMap pathWritten

/-- Whether an event is a per-orientation diffraction plot. -/
def isDiff : Event → Bool
  | .diffplot _ _ => true
  | _ => false

/-- Whether an event saves the orientation list. -/
def isNpQuats : Event → Bool
  | .npsaveQuats _ _ => true
  | _ => false

/-- Replace a job's workspace file list (used to state frame effects). -/
def withFiles (j : Job) (fl : List String) : Job :=
  ⟨j.traj, j.docSteps, j.spNSteps, fl⟩

/-! ## Concrete instances used to evaluate the model on closed inputs -/

/-- A concrete instantiation of the external numeric kernels. -/
def A0 : Analysis :=
  ⟨fun _ _ _ _ _ => ([], [], 1),
   fun _ _ => [],
   fun _ _ _ => [],
   [(1, 0, 0, 0)],
   fun _ => "[1. 0. 0. 0.]"⟩

/-- A concrete frame with a single particle of type `"A"`. -/
def fr0 : Frame := ⟨0, ["A"], [0], [(0, 0, 0)], [1, 1, 1]⟩

/-- A 30-frame trajectory (long enough for both MSD windows). -/
def traj30 : Traj := ⟨List.replicate 30 fr0⟩

/-- A one-frame trajectory whose final step is 100. -/
def trajStep100 : Traj := ⟨[⟨100, [], [], [], []⟩]⟩

/-- A job whose trajectory reached step 100, with document target 50 and
statepoint target 200. -/
def jobMid : Job := ⟨some trajStep100, 50, 200, []⟩

/-- A sampled job over `traj30` with an empty workspace file list. -/
def jobT30 : Job := ⟨some traj30, 0, 0, []⟩

/-- The spec's two-file throughput example. -/
def exFiles : List (List String) :=
  [["Time 01:00:00\n"], ["Average TPS: 120\n", "Time 00:30:15\n"]]

/-! ## Lemmas about the throughput parser -/

/-- A file with no throughput-marker line is skipped entirely by the loop
body: the `IndexError` on `[-1]` fires before the time lines are read. -/
lemma fileContrib_noTps (f : List String) (h : ∀ l ∈ f, hasTps l = false) :
    fileContrib f = .ok (none, none) := by
  have hf : f.filter hasTps = [] := by
    rw [List.filter_eq_nil_iff]
    intro a ha
    simp [h a ha]
  simp [fileContrib, hf]

/-- Inserting a file that contributes nothing leaves the loop unchanged. -/
lemma runFiles_skip (f : List String) (hf : fileContrib f = .ok (none, none)) :
    ∀ (l1 l2 : List (List String)) (tps : Option String) (times : List Int),
      runFiles (l1 ++ f :: l2) tps times = runFiles (l1 ++ l2) tps times := by
  intro l1
  induction l1 with
  | nil =>
    intro l2 tps times
    simp [runFiles, hf, mergeTps]
  | cons a as ih =>
    intro l2 tps times
    simp only [List.cons_append, runFiles]
    cases hca : fileContrib a with
    | error e => rfl
    | ok c => exact ih l2 _ _

/-- When no file has a throughput marker, the `tps` local is never
assigned and `times` never grows. -/
lemma runFiles_noTps (files : List (List String))
    (h : ∀ f ∈ files, ∀ l ∈ f, hasTps l = false) :
    ∀ times : List Int, runFiles files none times = .ok (none, times) := by
  induction files with
  | nil => intro times; rfl
  | cons f fs ih =>
    intro times
    have hf : fileContrib f = .ok (none, none) :=
      fileContrib_noTps f (h f (List.mem_cons_self f fs))
    simp only [runFiles, hf]
    simpa [mergeTps] using ih (fun g hg => h g (List.mem_cons_of_mem f hg)) times

/-- The loop computes the last-wins throughput and the accumulated time
samples, provided no iteration raises a `ValueError`. -/
lemma runFiles_ok (files : List (List String)) :
    ∀ (tps : Option String) (times : List Int),
      (∀ f ∈ files, fileContrib f ≠ .error ()) →
      runFiles files tps times =
        .ok ((tpsList files).foldl (fun _ t => some t) tps, times ++ timesList files) := by
  induction files with
  | nil =>
    intro tps times _
    simp [runFiles, tpsList, timesList]
  | cons f fs ih =>
    intro tps times h
    have hf := h f (List.mem_cons_self f fs)
    cases hcf : fileContrib f with
    | error e => cases e; exact absurd hcf hf
    | ok c =>
      obtain ⟨tc, cc⟩ := c
      simp only [runFiles, hcf]
      rw [ih _ _ (fun g hg => h g (List.mem_cons_of_mem f hg))]
      have htl : tpsList (f :: fs) = tc.toList ++ tpsList fs := by
        cases tc <;> simp [tpsList, tpsOf, hcf]
      have hcl : timesList (f :: fs) = cc.toList ++ timesList fs := by
        cases cc <;> simp [timesList, timeOf, hcf]
      cases tc <;> cases cc <;>
        simp [htl, hcl, mergeTps, List.append_assoc]

/-- Folding last-write-wins over a non-empty list yields its last element. -/
lemma foldl_some_last {α : Type} (l : List α) (h : l ≠ []) :
    ∀ a : Option α, l.foldl (fun _ t => some t) a = some (l.getLast h) := by
  induction l with
  | nil => exact absurd rfl h
  | cons x xs ih =>
    intro a
    cases xs with
    | nil => rfl
    | cons y ys =>
      have hne : y :: ys ≠ [] := by simp
      rw [List.foldl_cons, ih hne, List.getLast_cons hne]

/-- Left fold of addition over the integers is the sum. -/
lemma foldl_add_eq_sum (l : List Int) :
    ∀ a : Int, l.foldl (fun x y => x + y) a = a + l.sum := by
  induction l with
  | nil => intro a; simp
  | cons x xs ih =>
    intro a
    rw [List.foldl_cons, ih, List.sum_cons, add_assoc]

/-! ## Claims about the throughput parser (C1, C4, C10) -/

/-- Claim C1 (amended): the total elapsed time is the sum of the last
parsed `HH:MM:SS` value over the files that contain a throughput-marker
line in addition to a time-marker line (a file with a time marker but no
throughput marker is skipped whole, because the `IndexError` raised while
looking for the throughput line aborts that iteration before the time
lines are read), re-rendered zero-padded; the throughput is the value
parsed from the last processed file containing a throughput-marker line.
On the example input the result is total time `00:30:15` (not `01:30:15`)
and throughput `120`. -/
theorem get_tps_time_aggregate (files : List (List String))
    (hok : ∀ f ∈ files, fileContrib f ≠ .error ())
    (htps : tpsList files ≠ [])
    (htime : timesList files ≠ []) :
    get_tps_time files =
      .ok ((tpsList files).getLast htps, formatHMS (timesList files).sum)
    ∧ ∀ f ∈ files, (∀ l ∈ f, hasTps l = false) → timeOf f = none := by
  constructor
  · have hempty : (timesList files).isEmpty = false := by
      cases h : timesList files with
      | nil => exact absurd h htime
      | cons a as => rfl
    unfold get_tps_time
    rw [runFiles_ok files none [] hok, foldl_some_last _ htps]
    simp only [List.nil_append, hempty, Bool.false_eq_true, if_false]
    rw [foldl_add_eq_sum, zero_add]
  · intro f hf h
    simp [timeOf, fileContrib_noTps f h]

/-- Counterexample to claim C1 as stated: on the spec's own example input
the total elapsed time is `00:30:15` — file1's `Time 01:00:00` is dropped
because file1 has no throughput-marker line — not `01:30:15`. -/
theorem get_tps_time_example_cex :
    get_tps_time exFiles = .ok ("120", "00:30:15") ∧
      (Except.ok ("120", "00:30:15") : Except TpsErr (String × String)) ≠
        .ok ("120", "01:30:15") := by
  exact ⟨by decide, by decide⟩

/-- Witness for C1: the amended aggregation theorem applied to the spec's
example input. -/
theorem get_tps_time_aggregate_witness :
    get_tps_time exFiles = .ok ("120", "00:30:15") := by
  rw [(get_tps_time_aggregate exFiles (by decide) (by decide) (by decide)).1]
  decide

/-- Claim C4: a log file whose lines contain neither a throughput-marker
line nor a time-marker line contributes nothing to either aggregate and
does not cause the parse to fail: removing it from any position of the
file list leaves the result unchanged. -/
theorem get_tps_time_skip_markerless (f : List String)
    (h : ∀ l ∈ f, hasTps l = false ∧ hasTime l = false) :
    fileContrib f = .ok (none, none) ∧
      ∀ l1 l2 : List (List String),
        get_tps_time (l1 ++ f :: l2) = get_tps_time (l1 ++ l2) := by
  have hf : fileContrib f = .ok (none, none) :=
    fileContrib_noTps f (fun l hl => (h l hl).1)
  refine ⟨hf, ?_⟩
  intro l1 l2
  unfold get_tps_time
  rw [runFiles_skip f hf l1 l2 none []]

/-- Witness for C4: a marker-free junk file is skipped. -/
theorem get_tps_time_skip_witness :
    get_tps_time [["junk line\n"], ["Average TPS: 5\n", "Time 00:00:10\n"]] =
      get_tps_time [["Average TPS: 5\n", "Time 00:00:10\n"]] :=
  (get_tps_time_skip_markerless ["junk line\n"] (by decide)).2 []
    [["Average TPS: 5\n", "Time 00:00:10\n"]]

/-- Claim C10: on any non-empty file list in which no file contains a
throughput-marker line — even if some contain time-marker lines —
`get_tps_time` does not return a value: the `tps` local is never assigned
and `return tps, ...` raises `UnboundLocalError`. -/
theorem get_tps_time_unbound_local (files : List (List String))
    (hne : files ≠ [])
    (h : ∀ f ∈ files, ∀ l ∈ f, hasTps l = false) :
    get_tps_time files = .error .unboundLocal := by
  unfold get_tps_time
  rw [runFiles_noTps files h []]

/-- Witness for C10: a single file containing only a time-marker line. -/
theorem get_tps_time_unbound_witness :
    get_tps_time [["Time 01:00:00\n"]] = .error .unboundLocal :=
  get_tps_time_unbound_local [["Time 01:00:00\n"]] (by decide) (by decide)

/-! ## Claims about the labels and the scheduler (C2, C3) -/

/-- Claim C2 (amended): `sampled(job)` is true iff the final frame's step
of the trajectory is at least the target step count stored in the job
document (`job.doc.steps` — not the statepoint's `n_steps`); for a job
with no trajectory file the step query returns the sentinel `-1`,
distinct from every real (nonnegative) step counter. -/
theorem sampled_doc_target (j : Job)
    (ht : ∀ t, j.traj = some t → t.frames ≠ []) :
    (∀ t, j.traj = some t →
      (sampled j = true ↔ j.docSteps ≤ ((t.frames.getLastD default).step : Int)))
    ∧ (j.traj = none → current_step j = -1 ∧ ∀ s : Nat, current_step j ≠ (s : Int)) := by
  constructor
  · intro t htj
    simp [sampled, current_step, htj, ge_iff_le]
  · intro hn
    refine ⟨by simp [current_step, hn], ?_⟩
    intro s
    simp only [current_step, hn]
    omega

/-- Counterexample to claim C2 as stated: a job whose trajectory reached
step 100 with document target 50 and statepoint target 200 is `sampled`
although the final step is below the statepoint's target. -/
theorem sampled_statepoint_cex :
    sampled jobMid = true ∧ ¬(current_step jobMid ≥ jobMid.spNSteps) := by
  decide

/-- Witness for C2: the amended theorem at a concrete job (final step
100, document target 50). -/
theorem sampled_doc_target_witness : sampled jobMid = true := by
  refine ((sampled_doc_target jobMid ?_).1 trajStep100 rfl).mpr (by decide)
  intro t ht
  simp only [jobMid, Option.some.injEq] at ht
  subst ht
  decide

/-- Claim C3: over all jobs, `sample` is eligible exactly when `sampled`
is false (it has no pre-condition), and `post_proc` is eligible exactly
when `sampled` is true and `rdfed` is false. -/
theorem eligibility_two_stage (j : Job) :
    (eligible sampleOp j = true ↔ sampled j = false)
    ∧ (eligible postProcOp j = true ↔ (sampled j = true ∧ rdfed j = false)) := by
  constructor
  · simp [eligible, sampleOp]
  · simp [eligible, postProcOp]

/-! ## Lemmas about the `post_proc` trace -/

/-- The event trace of the whole analysis loop is the concatenation of
the per-type traces. -/
lemma rdfMsdLoop_events (A : Analysis) (traj : Traj) (ts : List String) :
    (rdfMsdLoop A traj ts).1 = ts.bind (fun t => (rdfMsdStep A traj t).1) := by
  induction ts with
  | nil => rfl
  | cons t ts ih => simp [rdfMsdLoop, ih]

/-- The `slopes` dictionary maps each type, in iteration order, to the
OLS slope of its short-window MSD series. -/
lemma rdfMsdLoop_slopes (A : Analysis) (traj : Traj) (ts : List String) :
    (rdfMsdLoop A traj ts).2 =
      ts.map (fun t => (t, olsSlope (msd_from_gsd A traj (-25) (-9) t))) := by
  induction ts with
  | nil => rfl
  | cons t ts ih => simp [rdfMsdLoop, ih, rdfMsdStep]

/-- Per-type events all land in the loop's trace. -/
lemma mem_rdfMsdLoop (A : Analysis) (traj : Traj) {t : String} {ts : List String}
    (ht : t ∈ ts) {e : Event} (he : e ∈ (rdfMsdStep A traj t).1) :
    e ∈ (rdfMsdLoop A traj ts).1 := by
  rw [rdfMsdLoop_events]
  exact List.mem_bind.mpr ⟨t, ht, he⟩

/-- The loop creates no directories. -/
lemma rdfMsdLoop_no_dirs (A : Analysis) (traj : Traj) (ts : List String) :
    ∀ e ∈ (rdfMsdLoop A traj ts).1, isDirCreate e = false := by
  rw [rdfMsdLoop_events]
  intro e he
  obtain ⟨t, -, he⟩ := List.mem_bind.mp he
  simp only [rdfMsdStep, List.mem_cons, List.not_mem_nil, or_false] at he
  rcases he with h | h | h | h | h | h <;> subst h <;> rfl

/-- The loop produces no diffraction plots. -/
lemma rdfMsdLoop_no_diff (A : Analysis) (traj : Traj) (ts : List String) :
    ∀ e ∈ (rdfMsdLoop A traj ts).1, isDiff e = false := by
  rw [rdfMsdLoop_events]
  intro e he
  obtain ⟨t, -, he⟩ := List.mem_bind.mp he
  simp only [rdfMsdStep, List.mem_cons, List.not_mem_nil, or_false] at he
  rcases he with h | h | h | h | h | h <;> subst h <;> rfl

/-- The loop does not save the orientation list. -/
lemma rdfMsdLoop_no_npq (A : Analysis) (traj : Traj) (ts : List String) :
    ∀ e ∈ (rdfMsdLoop A traj ts).1, isNpQuats e = false := by
  rw [rdfMsdLoop_events]
  intro e he
  obtain ⟨t, -, he⟩ := List.mem_bind.mp he
  simp only [rdfMsdStep, List.mem_cons, List.not_mem_nil, or_false] at he
  rcases he with h | h | h | h | h | h <;> subst h <;> rfl

/-- The diffraction stage creates no directories. -/
lemma diffEvents_no_dirs (A : Analysis) (snap : Frame) :
    ∀ e ∈ diffEvents A snap, isDirCreate e = false := by
  intro e he
  rcases List.mem_append.mp he with h | h
  · obtain ⟨q, -, rfl⟩ := List.mem_map.mp h
    rfl
  · simp only [List.mem_singleton] at h
    subst h
    rfl

/-- The diffraction plots of the diffraction stage, one per orientation
in iteration order. -/
lemma diffEvents_filter_isDiff (A : Analysis) (snap : Frame) :
    (diffEvents A snap).filter isDiff =
      A.quats.map (fun q =>
        Event.diffplot ("diffraction_plots/" ++ A.qstr q ++ ".png")
          (A.diffract snap.box snap.positions q)) := by
  unfold diffEvents
  rw [List.filter_append]
  have h1 : (A.quats.map (fun q =>
      Event.diffplot ("diffraction_plots/" ++ A.qstr q ++ ".png")
        (A.diffract snap.box snap.positions q))).filter isDiff =
      A.quats.map (fun q =>
        Event.diffplot ("diffraction_plots/" ++ A.qstr q ++ ".png")
          (A.diffract snap.box snap.positions q)) := by
    rw [List.filter_eq_self]
    intro e he
    obtain ⟨q, -, rfl⟩ := List.mem_map.mp he
    rfl
  rw [h1]
  simp [isDiff]

/-- The diffraction stage saves the orientation list exactly once. -/
lemma diffEvents_filter_npq (A : Analysis) (snap : Frame) :
    (diffEvents A snap).filter isNpQuats = [Event.npsaveQuats "dp.npy" A.quats] := by
  unfold diffEvents
  rw [List.filter_append]
  have h1 : (A.quats.map (fun q =>
      Event.diffplot ("diffraction_plots/" ++ A.qstr q ++ ".png")
        (A.diffract snap.box snap.positions q))).filter isNpQuats = [] := by
    rw [List.filter_eq_nil_iff]
    intro e he
    obtain ⟨q, -, rfl⟩ := List.mem_map.mp he
    simp [isNpQuats]
  rw [h1]
  simp [isNpQuats]

/-- Shape of a successful `post_proc` run: RDF/MSD directory creations,
the per-type loop, the document write, the diffraction directory, the
diffraction stage — and no raise. -/
lemma post_proc_eq (A : Analysis) (traj : Traj) (fs : List String)
    (hne : traj.frames ≠ [])
    (h1 : fs.contains "rdf/rdf_txt_files" = false)
    (h2 : fs.contains "rdf/rdf_png_files" = false)
    (h3 : fs.contains "msd/msd_npy_files" = false)
    (h4 : fs.contains "diffraction_plots" = false) :
    post_proc A traj fs =
      ([Event.makedirs "rdf/rdf_txt_files", Event.makedirs "rdf/rdf_png_files",
        Event.makedirs "msd/msd_npy_files"]
        ++ (rdfMsdLoop A traj (traj.frames.headD default).types).1
        ++ [Event.docWrite "msd_slopes"
            (rdfMsdLoop A traj (traj.frames.headD default).types).2]
        ++ Event.mkdir "diffraction_plots" ::
            diffEvents A (traj.frames.getLastD default), false) := by
  have g1 : "rdf/rdf_txt_files" ∉ fs := by simpa using h1
  have g2 : "rdf/rdf_png_files" ∉ fs := by simpa using h2
  have g3 : "msd/msd_npy_files" ∉ fs := by simpa using h3
  have g4 : "diffraction_plots" ∉ fs := by simpa using h4
  obtain ⟨frames⟩ := traj
  cases frames with
  | nil => exact absurd rfl hne
  | cons s rest =>
    simp [post_proc, g1, g2, g3, g4, List.append_assoc]

/-- All loop events appear in the trace whenever the three `makedirs`
succeed (regardless of a later diffraction-directory collision). -/
lemma loop_mem_trace (A : Analysis) (traj : Traj) (fs : List String)
    (hne : traj.frames ≠ [])
    (h1 : fs.contains "rdf/rdf_txt_files" = false)
    (h2 : fs.contains "rdf/rdf_png_files" = false)
    (h3 : fs.contains "msd/msd_npy_files" = false) :
    ∀ e ∈ (rdfMsdLoop A traj (traj.frames.headD default).types).1,
      e ∈ (post_proc A traj fs).1 := by
  intro e he
  have g1 : "rdf/rdf_txt_files" ∉ fs := by simpa using h1
  have g2 : "rdf/rdf_png_files" ∉ fs := by simpa using h2
  have g3 : "msd/msd_npy_files" ∉ fs := by simpa using h3
  obtain ⟨frames⟩ := traj
  cases frames with
  | nil => exact absurd rfl hne
  | cons s rest =>
    simp only [List.headD_cons] at he
    by_cases h4 : "diffraction_plots" ∈ fs <;>
      simp [post_proc, g1, g2, g3, h4, he]

/-- The document write appears in the trace whenever the three `makedirs`
succeed. -/
lemma docWrite_mem_trace (A : Analysis) (traj : Traj) (fs : List String)
    (hne : traj.frames ≠ [])
    (h1 : fs.contains "rdf/rdf_txt_files" = false)
    (h2 : fs.contains "rdf/rdf_png_files" = false)
    (h3 : fs.contains "msd/msd_npy_files" = false) :
    Event.docWrite "msd_slopes"
        (rdfMsdLoop A traj (traj.frames.headD default).types).2
      ∈ (post_proc A traj fs).1 := by
  have g1 : "rdf/rdf_txt_files" ∉ fs := by simpa using h1
  have g2 : "rdf/rdf_png_files" ∉ fs := by simpa using h2
  have g3 : "msd/msd_npy_files" ∉ fs := by simpa using h3
  obtain ⟨frames⟩ := traj
  cases frames with
  | nil => exact absurd rfl hne
  | cons s rest =>
    by_cases h4 : "diffraction_plots" ∈ fs <;>
      simp [post_proc, g1, g2, g3, h4]

/-- Length of a Python slice with negative endpoints on a long-enough
list. -/
lemma pySlice_length_neg {α : Type} (l : List α) (a b : Nat)
    (hb : 0 < b) (hba : b ≤ a) (ha : a ≤ l.length) :
    (pySlice l (-(a : Int)) (-(b : Int))).length = a - b := by
  have hpa : (-(a : Int)) < 0 := by omega
  have hpb : (-(b : Int)) < 0 := by omega
  simp only [pySlice, pyIdx, if_pos hpa, if_pos hpb, List.length_take, List.length_drop]
  have hma : max (-(a : Int) + l.length) 0 = -(a : Int) + l.length := by omega
  have hmb : max (-(b : Int) + l.length) 0 = -(b : Int) + l.length := by omega
  rw [hma, hmb]
  omega

/-- A string starting with a long constant prefix is not the marker file
name `rdf.txt`. -/
lemma append3_ne_marker (pre t suf : String) (h : 7 < pre.length + t.length + suf.length) :
    pre ++ t ++ suf ≠ "rdf.txt" := by
  intro he
  have hl : (pre ++ t ++ suf).length = pre.length + t.length + suf.length := by
    simp [String.length_append, Nat.add_assoc]
  rw [he] at hl
  have : ("rdf.txt" : String).length = 7 := rfl
  omega

/-- The paths written by one iteration of the analysis loop. -/
lemma rdfMsdStep_paths (A : Analysis) (traj : Traj) (t : String) :
    pathsWritten (rdfMsdStep A traj t).1 =
      ["rdf/rdf_txt_files/" ++ t ++ "_rdf.txt",
       "rdf/rdf_png_files/" ++ t ++ "_rdf.png",
       "msd/msd_npy_files/" ++ t ++ ".npy",
       "msd/msd.png"] := by
  simp [rdfMsdStep, pathsWritten, pathWritten]

/-- No path written by the analysis loop is the marker file `rdf.txt`. -/
lemma rdfMsdLoop_paths_ne_marker (A : Analysis) (traj : Traj) (ts : List String) :
    ∀ p ∈ pathsWritten (rdfMsdLoop A traj ts).1, p ≠ "rdf.txt" := by
  induction ts with
  | nil =>
    intro p hp
    simp [rdfMsdLoop, pathsWritten] at hp
  | cons t ts ih =>
    intro p hp
    have hsplit : pathsWritten (rdfMsdLoop A traj (t :: ts)).1 =
        pathsWritten (rdfMsdStep A traj t).1 ++ pathsWritten (rdfMsdLoop A traj ts).1 := by
      simp [rdfMsdLoop, pathsWritten, List.filterMap_append]
    rw [hsplit, List.mem_append] at hp
    rcases hp with hp | hp
    · rw [rdfMsdStep_paths] at hp
      have h18 : ("rdf/rdf_txt_files/" : String).length = 18 := rfl
      have h18b : ("rdf/rdf_png_files/" : String).length = 18 := rfl
      have h18c : ("msd/msd_npy_files/" : String).length = 18 := rfl
      have h8 : ("_rdf.txt" : String).length = 8 := rfl
      have h8b : ("_rdf.png" : String).length = 8 := rfl
      have h4 : (".npy" : String).length = 4 := rfl
      simp only [List.mem_cons, List.not_mem_nil, or_false] at hp
      rcases hp with h | h | h | h <;> subst h
      · exact append3_ne_marker "rdf/rdf_txt_files/" t "_rdf.txt" (by omega)
      · exact append3_ne_marker "rdf/rdf_png_files/" t "_rdf.png" (by omega)
      · exact append3_ne_marker "msd/msd_npy_files/" t ".npy" (by omega)
      · decide
    · exact ih p hp

/-- No path written by the diffraction stage is the marker file
`rdf.txt`. -/
lemma diffEvents_paths_ne_marker (A : Analysis) (snap : Frame) :
    ∀ p ∈ pathsWritten (diffEvents A snap), p ≠ "rdf.txt" := by
  intro p hp
  obtain ⟨e, he, hpe⟩ := List.mem_filterMap.mp hp
  rcases List.mem_append.mp he with h | h
  · obtain ⟨q, -, rfl⟩ := List.mem_map.mp h
    simp only [pathWritten, Option.some.injEq] at hpe
    subst hpe
    have h18 : ("diffraction_plots/" : String).length = 18 := rfl
    have h4 : (".png" : String).length = 4 := rfl
    exact append3_ne_marker _ _ _ (by omega)
  · simp only [List.mem_singleton] at h
    subst h
    simp only [pathWritten, Option.some.injEq] at hpe
    subst hpe
    decide

/-- No run of `post_proc` — aborted or complete — writes the marker file
`rdf.txt`. -/
lemma post_proc_paths_ne_marker (A : Analysis) (traj : Traj) (fs : List String) :
    ∀ p ∈ pathsWritten (post_proc A traj fs).1, p ≠ "rdf.txt" := by
  intro p hp
  obtain ⟨frames⟩ := traj
  cases frames with
  | nil => simp [post_proc, pathsWritten] at hp
  | cons s rest =>
    by_cases c1 : "rdf/rdf_txt_files" ∈ fs
    · simp [post_proc, c1, pathsWritten, pathWritten] at hp
    · by_cases c2 : "rdf/rdf_png_files" ∈ fs
      · simp [post_proc, c1, c2, pathsWritten, pathWritten] at hp
      · by_cases c3 : "msd/msd_npy_files" ∈ fs
        · simp [post_proc, c1, c2, c3, pathsWritten, pathWritten] at hp
        · by_cases c4 : "diffraction_plots" ∈ fs
          · have htr : (post_proc A (Traj.mk (s :: rest)) fs).1 =
                [Event.makedirs "rdf/rdf_txt_files", Event.makedirs "rdf/rdf_png_files",
                 Event.makedirs "msd/msd_npy_files"]
                ++ ((rdfMsdLoop A (Traj.mk (s :: rest)) s.types).1
                ++ [Event.docWrite "msd_slopes"
                     (rdfMsdLoop A (Traj.mk (s :: rest)) s.types).2]) := by
              simp [post_proc, c1, c2, c3, c4, List.append_assoc]
            rw [htr] at hp
            obtain ⟨e, he, hpe⟩ := List.mem_filterMap.mp hp
            rcases List.mem_append.mp he with he1 | he2
            · simp only [List.mem_cons, List.not_mem_nil, or_false] at he1
              rcases he1 with rfl | rfl | rfl <;> exact Option.noConfusion hpe
            · rcases List.mem_append.mp he2 with he3 | he4
              · exact rdfMsdLoop_paths_ne_marker A _ _ p
                  (List.mem_filterMap.mpr ⟨e, he3, hpe⟩)
              · simp only [List.mem_singleton] at he4
                subst he4
                exact Option.noConfusion hpe
          · rw [post_proc_eq A (Traj.mk (s :: rest)) fs (by simp)
                (by simpa using c1) (by simpa using c2) (by simpa using c3)
                (by simpa using c4)] at hp
            obtain ⟨e, he, hpe⟩ := List.mem_filterMap.mp hp
            rcases List.mem_append.mp he with he1 | he2
            · rcases List.mem_append.mp he1 with he3 | he4
              · rcases List.mem_append.mp he3 with he5 | he6
                · simp only [List.mem_cons, List.not_mem_nil, or_false] at he5
                  rcases he5 with rfl | rfl | rfl <;> exact Option.noConfusion hpe
                · exact rdfMsdLoop_paths_ne_marker A _ _ p
                    (List.mem_filterMap.mpr ⟨e, he6, hpe⟩)
              · simp only [List.mem_singleton] at he4
                subst he4
                exact Option.noConfusion hpe
            · rcases List.mem_cons.mp he2 with rfl | h
              · exact Option.noConfusion hpe
              · exact diffEvents_paths_ne_marker A _ p
                  (List.mem_filterMap.mpr ⟨e, h, hpe⟩)

/-! ## Claims about the analysis operation (C5-C9) -/

/-- Claim C5 (amended): for each distinct particle type of the first
frame, the self RDF is computed over the window `[0.01, 5]` and persisted
as a two-column comma-delimited text artifact with header
`bin_centers, rdf` at `rdf/rdf_txt_files/<type>_rdf.txt` (not
`<type>.txt` as the claim stated), plus a rendered curve image at
`rdf/rdf_png_files/<type>_rdf.png`. -/
theorem post_proc_rdf_artifacts (A : Analysis) (traj : Traj) (fs : List String)
    (hne : traj.frames ≠ [])
    (h1 : fs.contains "rdf/rdf_txt_files" = false)
    (h2 : fs.contains "rdf/rdf_png_files" = false)
    (h3 : fs.contains "msd/msd_npy_files" = false) :
    ∀ t ∈ (traj.frames.headD default).types,
      Event.savetxt ("rdf/rdf_txt_files/" ++ t ++ "_rdf.txt") "bin_centers, rdf" ","
          ((A.gsd_rdf traj t t (1 / 100) 5).1.zip
            ((A.gsd_rdf traj t t (1 / 100) 5).2.1.map
              (fun v => v * (A.gsd_rdf traj t t (1 / 100) 5).2.2)))
        ∈ (post_proc A traj fs).1
      ∧ Event.savefig ("rdf/rdf_png_files/" ++ t ++ "_rdf.png") ∈ (post_proc A traj fs).1 := by
  intro t ht
  constructor
  · exact loop_mem_trace A traj fs hne h1 h2 h3 _
      (mem_rdfMsdLoop A traj ht (by simp [rdfMsdStep]))
  · exact loop_mem_trace A traj fs hne h1 h2 h3 _
      (mem_rdfMsdLoop A traj ht (by simp [rdfMsdStep]))

/-- Counterexample to claim C5 as stated: on a concrete run the RDF text
artifact for type `A` lands at `rdf/rdf_txt_files/A_rdf.txt`, while
nothing at all is written at the claimed path `rdf/rdf_txt_files/A.txt`. -/
theorem post_proc_rdf_path_cex :
    Event.savetxt "rdf/rdf_txt_files/A_rdf.txt" "bin_centers, rdf" "," []
        ∈ (post_proc A0 traj30 []).1
    ∧ ∀ e ∈ (post_proc A0 traj30 []).1, pathWritten e ≠ some "rdf/rdf_txt_files/A.txt" := by
  exact ⟨by decide, by decide⟩

/-- Witness for C5: the amended theorem at a concrete analysis run. -/
theorem post_proc_rdf_artifacts_witness :
    Event.savetxt "rdf/rdf_txt_files/A_rdf.txt" "bin_centers, rdf" ","
        ((A0.gsd_rdf traj30 "A" "A" (1 / 100) 5).1.zip
          ((A0.gsd_rdf traj30 "A" "A" (1 / 100) 5).2.1.map
            (fun v => v * (A0.gsd_rdf traj30 "A" "A" (1 / 100) 5).2.2)))
      ∈ (post_proc A0 traj30 []).1
    ∧ Event.savefig "rdf/rdf_png_files/A_rdf.png" ∈ (post_proc A0 traj30 []).1 :=
  post_proc_rdf_artifacts A0 traj30 [] (by decide) rfl rfl rfl "A" (by decide)

/-- Claim C6: for each particle type two windowed MSD series are computed
from different frame sub-ranges of the same trajectory — frames
`[-30:-1]` (29 frames on a long-enough trajectory), persisted as a raw
`.npy` artifact and plotted, and the strictly shorter `[-25:-9]` (16
frames) used for slope estimation — and an OLS line is fitted to the
slope series against frame index `0, 1, 2, ...`, the slope stored per
type in the job document under `msd_slopes`. -/
theorem post_proc_msd_slopes (A : Analysis) (traj : Traj) (fs : List String)
    (hlen : 30 ≤ traj.frames.length)
    (h1 : fs.contains "rdf/rdf_txt_files" = false)
    (h2 : fs.contains "rdf/rdf_png_files" = false)
    (h3 : fs.contains "msd/msd_npy_files" = false) :
    (pySlice traj.frames (-30) (-1)).length = 29
    ∧ (pySlice traj.frames (-25) (-9)).length = 16
    ∧ (pySlice traj.frames (-25) (-9)).length < (pySlice traj.frames (-30) (-1)).length
    ∧ (∀ t ∈ (traj.frames.headD default).types,
        Event.npsaveArr ("msd/msd_npy_files/" ++ t ++ ".npy")
            (msd_from_gsd A traj (-30) (-1) t) ∈ (post_proc A traj fs).1
        ∧ Event.plotSeries (msd_from_gsd A traj (-30) (-1) t) ∈ (post_proc A traj fs).1)
    ∧ Event.docWrite "msd_slopes"
        ((traj.frames.headD default).types.map
          (fun t => (t, olsSlope (msd_from_gsd A traj (-25) (-9) t))))
        ∈ (post_proc A traj fs).1 := by
  have hne : traj.frames ≠ [] := by
    intro h
    rw [h] at hlen
    simp at hlen
  have hl30 : (pySlice traj.frames (-30) (-1)).length = 29 := by
    have h := pySlice_length_neg traj.frames 30 1 (by norm_num) (by norm_num) hlen
    simpa using h
  have hl25 : (pySlice traj.frames (-25) (-9)).length = 16 := by
    have h := pySlice_length_neg traj.frames 25 9 (by norm_num) (by norm_num) (by omega)
    simpa using h
  refine ⟨hl30, hl25, by omega, ?_, ?_⟩
  · intro t ht
    constructor
    · exact loop_mem_trace A traj fs hne h1 h2 h3 _
        (mem_rdfMsdLoop A traj ht (by simp [rdfMsdStep]))
    · exact loop_mem_trace A traj fs hne h1 h2 h3 _
        (mem_rdfMsdLoop A traj ht (by simp [rdfMsdStep]))
  · have h := docWrite_mem_trace A traj fs hne h1 h2 h3
    rwa [rdfMsdLoop_slopes] at h

/-- Witness for C6: on a 30-frame trajectory the slope-estimation range
is strictly shorter than the persisted range. -/
theorem post_proc_msd_slopes_witness :
    (pySlice traj30.frames (-25) (-9)).length < (pySlice traj30.frames (-30) (-1)).length :=
  (post_proc_msd_slopes A0 traj30 [] (by decide) rfl rfl rfl).2.2.1

/-- Claim C7: the diffraction stage reads particle positions only from
the final trajectory frame; its plots are exactly one image per
orientation of the fixed orientation set, named by the orientation's
value and in iteration order, and exactly one aggregate array `dp.npy`
listing the whole orientation set in the same order. -/
theorem post_proc_diffraction_trace (A : Analysis) (traj : Traj) (fs : List String)
    (hne : traj.frames ≠ [])
    (h1 : fs.contains "rdf/rdf_txt_files" = false)
    (h2 : fs.contains "rdf/rdf_png_files" = false)
    (h3 : fs.contains "msd/msd_npy_files" = false)
    (h4 : fs.contains "diffraction_plots" = false) :
    (post_proc A traj fs).1.filter isDiff =
      A.quats.map (fun q =>
        Event.diffplot ("diffraction_plots/" ++ A.qstr q ++ ".png")
          (A.diffract (traj.frames.getLastD default).box
            (traj.frames.getLastD default).positions q))
    ∧ (post_proc A traj fs).1.filter isNpQuats =
        [Event.npsaveQuats "dp.npy" A.quats] := by
  have h := post_proc_eq A traj fs hne h1 h2 h3 h4
  have hloopD : ∀ ts : List String, (rdfMsdLoop A traj ts).1.filter isDiff = [] := fun ts =>
    List.filter_eq_nil_iff.mpr (fun e he => by simp [rdfMsdLoop_no_diff A traj ts e he])
  have hloopQ : ∀ ts : List String, (rdfMsdLoop A traj ts).1.filter isNpQuats = [] := fun ts =>
    List.filter_eq_nil_iff.mpr (fun e he => by simp [rdfMsdLoop_no_npq A traj ts e he])
  constructor
  · rw [h]
    simp [List.filter_append, hloopD, diffEvents_filter_isDiff, isDiff]
  · rw [h]
    simp [List.filter_append, hloopQ, diffEvents_filter_npq, isNpQuats]

/-- Witness for C7: the concrete run saves the orientation list exactly
once. -/
theorem post_proc_diffraction_witness :
    (post_proc A0 traj30 []).1.filter isNpQuats = [Event.npsaveQuats "dp.npy" A0.quats] :=
  (post_proc_diffraction_trace A0 traj30 [] (by decide) rfl rfl rfl rfl).2

/-- Claim C8 (amended): the RDF and MSD output directories are created
unconditionally at the start of analysis and the diffraction directory
only at the start of the diffraction stage (after the RDF/MSD artifacts
are already written); if any of the four exists when its creation is
attempted, `post_proc` fails with an error — the collision is not
suppressed and no idempotent re-run is possible without external
cleanup. -/
theorem post_proc_dirs_amended (A : Analysis) (traj : Traj) (fs : List String)
    (hne : traj.frames ≠ []) :
    ((fs.contains "rdf/rdf_txt_files" = true ∨ fs.contains "rdf/rdf_png_files" = true
      ∨ fs.contains "msd/msd_npy_files" = true ∨ fs.contains "diffraction_plots" = true) →
      (post_proc A traj fs).2 = true)
    ∧ (fs.contains "rdf/rdf_txt_files" = false →
       fs.contains "rdf/rdf_png_files" = false →
       fs.contains "msd/msd_npy_files" = false →
       fs.contains "diffraction_plots" = false →
       (post_proc A traj fs).1.take 3 =
           [Event.makedirs "rdf/rdf_txt_files", Event.makedirs "rdf/rdf_png_files",
            Event.makedirs "msd/msd_npy_files"]
         ∧ (post_proc A traj fs).1.filter isDirCreate =
           [Event.makedirs "rdf/rdf_txt_files", Event.makedirs "rdf/rdf_png_files",
            Event.makedirs "msd/msd_npy_files", Event.mkdir "diffraction_plots"]
         ∧ (post_proc A traj fs).2 = false) := by
  constructor
  · intro hcol
    obtain ⟨frames⟩ := traj
    cases frames with
    | nil => rfl
    | cons s rest =>
      by_cases c1 : "rdf/rdf_txt_files" ∈ fs
      · simp [post_proc, c1]
      · by_cases c2 : "rdf/rdf_png_files" ∈ fs
        · simp [post_proc, c1, c2]
        · by_cases c3 : "msd/msd_npy_files" ∈ fs
          · simp [post_proc, c1, c2, c3]
          · by_cases c4 : "diffraction_plots" ∈ fs
            · simp [post_proc, c1, c2, c3, c4]
            · exfalso
              rcases hcol with h | h | h | h <;> simp_all
  · intro h1 h2 h3 h4
    have h := post_proc_eq A traj fs hne h1 h2 h3 h4
    have hloop : ∀ ts : List String, (rdfMsdLoop A traj ts).1.filter isDirCreate = [] :=
      fun ts =>
        List.filter_eq_nil_iff.mpr (fun e he => by simp [rdfMsdLoop_no_dirs A traj ts e he])
    have hdiffd : ∀ snap : Frame, (diffEvents A snap).filter isDirCreate = [] := fun snap =>
      List.filter_eq_nil_iff.mpr (fun e he => by simp [diffEvents_no_dirs A snap e he])
    refine ⟨?_, ?_, ?_⟩ <;> rw [h]
    · rfl
    · simp [List.filter_append, hloop, hdiffd, isDirCreate]

/-- Counterexample to claim C8 as stated: a complete, successful run in
which the directory creations do not all happen at the start — artifact
writes occur before the diffraction directory is created. -/
theorem post_proc_dirs_at_start_cex :
    dirsFirst (post_proc A0 traj30 []).1 = false ∧ (post_proc A0 traj30 []).2 = false := by
  exact ⟨by decide, by decide⟩

/-- Witness for C8: a pre-existing diffraction directory makes the
operation fail. -/
theorem post_proc_dirs_witness :
    (post_proc A0 traj30 ["diffraction_plots"]).2 = true :=
  (post_proc_dirs_amended A0 traj30 ["diffraction_plots"] (by decide)).1
    (Or.inr (Or.inr (Or.inr rfl)))

/-- Claim C9: no run of `post_proc` writes a file named `rdf.txt` (all
artifacts live under `rdf/`, `msd/`, `diffraction_plots/`, or are
`dp.npy`), so after a complete successful run `rdfed` is still false and
`post_proc` remains eligible — unless the marker was created outside the
operation. -/
theorem post_proc_no_rdf_marker (A : Analysis) (traj : Traj) (fs : List String) :
    (∀ p ∈ pathsWritten (post_proc A traj fs).1, p ≠ "rdf.txt")
    ∧ ∀ j : Job, sampled j = true → rdfed j = false →
        eligible postProcOp
          (withFiles j (j.files ++ pathsWritten (post_proc A traj fs).1)) = true := by
  refine ⟨post_proc_paths_ne_marker A traj fs, ?_⟩
  intro j hs hr
  have hnm : "rdf.txt" ∉ j.files ++ pathsWritten (post_proc A traj fs).1 := by
    intro hm
    rcases List.mem_append.mp hm with hm | hm
    · have h2 : rdfed j = true := List.elem_eq_true_of_mem hm
      rw [hr] at h2
      exact Bool.noConfusion h2
    · exact post_proc_paths_ne_marker A traj fs _ hm rfl
  have hsw : sampled (withFiles j (j.files ++ pathsWritten (post_proc A traj fs).1)) =
      sampled j := rfl
  have hrw : rdfed (withFiles j (j.files ++ pathsWritten (post_proc A traj fs).1)) = false := by
    simp [rdfed, withFiles, hnm]
  simp [eligible, postProcOp, hsw, hrw, hs]

/-- Witness for C9: after a complete concrete run of `post_proc` on a
sampled job, `post_proc` is still eligible. -/
theorem post_proc_no_rdf_marker_witness :
    eligible postProcOp
      (withFiles jobT30 (jobT30.files ++ pathsWritten (post_proc A0 traj30 []).1)) = true :=
  (post_proc_no_rdf_marker A0 traj30 []).2 jobT30 (by decide) rfl

end PlancktonFlow
